import Mathlib

/-!
Verification development for the multi-provider LLM client core of an
Obsidian quiz-generation plugin (`src/services/llm.ts`,
`src/services/formatter.ts`, and the caller-side score aggregation in
`src/ui/QuestionView.ts`).

The TypeScript sources are shallowly embedded: JavaScript strings become
`String`, `JSON.parse` becomes a fuel-based JSON parser over `List Char`
(JS numbers are kept as their validated lexemes, since no claim depends on
floating-point arithmetic on parsed numbers), thrown `Error` objects become
`Except` values carrying the thrown message, and the single outbound HTTP
call an adapter performs is abstracted as an injected adapter outcome
together with a count of HTTP requests attempted.
-/

namespace ObsidianLLMTest

/-! ## Character classes and string utilities -/

/-- JavaScript whitespace, as recognised both by `String.prototype.trim` and
by the regex class backslash-s: space, tab, line feed, vertical tab, form
feed, carriage return, NBSP, BOM, and the Unicode space separators. -/
def isJsWs (c : Char) : Bool :=
  c = ' ' || c = '\t' || c = '\n' || c = '\u000B' || c = '\u000C' || c = '\r' ||
  c = '\u00A0' || c = '\u1680' || (0x2000 ≤ c.toNat && c.toNat ≤ 0x200A) ||
  c = '\u2028' || c = '\u2029' || c = '\u202F' || c = '\u205F' || c = '\u3000' ||
  c = '\uFEFF'

/-- JSON insignificant whitespace (RFC 8259): space, tab, line feed, carriage
return.  This is what `JSON.parse` skips between tokens. -/
def isJsonWs (c : Char) : Bool :=
  c = ' ' || c = '\t' || c = '\n' || c = '\r'

def skipWs (cs : List Char) : List Char := cs.dropWhile isJsonWs

/-- JavaScript `String.prototype.trim`. -/
def jsTrim (s : String) : String :=
  String.mk (((s.data.dropWhile isJsWs).reverse.dropWhile isJsWs).reverse)

/-- JavaScript `s.slice(n)` for a nonnegative `n`. -/
def strDrop (s : String) (n : Nat) : String := String.mk (s.data.drop n)

/-- JavaScript `s.slice(0, -n)`: everything but the last `n` characters
(the whole string shrinks to empty when `n` exceeds its length). -/
def strDropLast (s : String) (n : Nat) : String :=
  String.mk ((s.data.reverse.drop n).reverse)

/-- JavaScript `s.startsWith(pre)`. -/
def beginsWith (s pre : String) : Bool := pre.data.isPrefixOf s.data

/-- JavaScript `s.endsWith(suf)`. -/
def finishesWith (s suf : String) : Bool := suf.data.reverse.isPrefixOf s.data.reverse

/-- Substring containment over character lists. -/
def containsSub (cs pat : List Char) : Bool :=
  match cs with
  | [] => pat.isEmpty
  | _ :: rest => pat.isPrefixOf cs || containsSub rest pat

/-- JavaScript `s.includes(pat)`. -/
def strIncludes (s pat : String) : Bool := containsSub s.data pat.data

/-! ## A model of `JSON.parse`

`JSON.parse` as invoked by the plugin performs no schema validation: the
parsed value is cast to the expected TypeScript interface unchecked.  So the
embedded parser produces an untyped JSON value.  Numbers are kept as their
validated lexemes: the plugin never computes with a number that came out of
`JSON.parse` in the code under verification, so the lexeme is a faithful
representation and avoids floating point. -/

inductive Json where
  | null : Json
  | bool (b : Bool) : Json
  | num (lexeme : String) : Json
  | str (s : String) : Json
  | arr (items : List Json) : Json
  | obj (members : List (String × Json)) : Json

def hexVal (c : Char) : Option Nat :=
  if '0' ≤ c ∧ c ≤ '9' then some (c.toNat - '0'.toNat)
  else if 'a' ≤ c ∧ c ≤ 'f' then some (c.toNat - 'a'.toNat + 10)
  else if 'A' ≤ c ∧ c ≤ 'F' then some (c.toNat - 'A'.toNat + 10)
  else none

def escChar (e : Char) : Option Char :=
  if e = '"' then some '"'
  else if e = '\\' then some '\\'
  else if e = '/' then some '/'
  else if e = 'b' then some '\u0008'
  else if e = 'f' then some '\u000C'
  else if e = 'n' then some '\n'
  else if e = 'r' then some '\r'
  else if e = 't' then some '\t'
  else none

/-- Body of a JSON string, after the opening quote.  Returns the decoded
characters and the remaining input after the closing quote.  A code unit
from a backslash-u escape that is not a valid scalar value collapses to
`'\u0000'` via `Char.ofNat`; no claim depends on such inputs. -/
def parseStrAux (fuel : Nat) (cs : List Char) : Option (List Char × List Char) :=
  match fuel with
  | 0 => none
  | fuel + 1 =>
    match cs with
    | [] => none
    | c :: rest =>
      if c = '"' then some ([], rest)
      else if c = '\\' then
        match rest with
        | [] => none
        | e :: rest2 =>
          if e = 'u' then
            match rest2 with
            | h1 :: h2 :: h3 :: h4 :: rest3 =>
              match hexVal h1, hexVal h2, hexVal h3, hexVal h4 with
              | some a, some b, some c2, some d =>
                match parseStrAux fuel rest3 with
                | some (acc, rem) =>
                  some (Char.ofNat (((a * 16 + b) * 16 + c2) * 16 + d) :: acc, rem)
                | none => none
              | _, _, _, _ => none
            | _ => none
          else
            match escChar e with
            | some d =>
              match parseStrAux fuel rest2 with
              | some (acc, rem) => some (d :: acc, rem)
              | none => none
            | none => none
      else if c.toNat < 32 then none
      else
        match parseStrAux fuel rest with
        | some (acc, rem) => some (c :: acc, rem)
        | none => none

def digitSpan (cs : List Char) : List Char × List Char :=
  (cs.takeWhile Char.isDigit, cs.dropWhile Char.isDigit)

/-- Fractional part of a number lexeme (possibly empty). -/
def fracPart (cs : List Char) : Option (List Char × List Char) :=
  match cs with
  | '.' :: rest =>
    match digitSpan rest with
    | ([], _) => none
    | (ds, rest2) => some ('.' :: ds, rest2)
  | _ => some ([], cs)

/-- Exponent part of a number lexeme (possibly empty). -/
def expPart (cs : List Char) : Option (List Char × List Char) :=
  match cs with
  | c :: rest =>
    if c = 'e' ∨ c = 'E' then
      let signAndRest : List Char × List Char :=
        match rest with
        | '+' :: r => (['+'], r)
        | '-' :: r => (['-'], r)
        | _ => ([], rest)
      match digitSpan signAndRest.2 with
      | ([], _) => none
      | (ds, rest2) => some (c :: (signAndRest.1 ++ ds), rest2)
    else some ([], cs)
  | [] => some ([], [])

/-- A JSON number lexeme per RFC 8259 (which is what `JSON.parse` accepts):
optional minus, integer part without leading zeros, optional fraction,
optional exponent. -/
def parseNumLexeme (cs : List Char) : Option (List Char × List Char) :=
  let signAndRest : List Char × List Char :=
    match cs with
    | '-' :: rest => (['-'], rest)
    | _ => ([], cs)
  match signAndRest.2 with
  | [] => none
  | c :: rest =>
    if c = '0' then
      match fracPart rest with
      | none => none
      | some (fp, rest2) =>
        match expPart rest2 with
        | none => none
        | some (ep, rest3) => some (signAndRest.1 ++ '0' :: fp ++ ep, rest3)
    else if c.isDigit then
      match digitSpan rest with
      | (ds, rest1) =>
        match fracPart rest1 with
        | none => none
        | some (fp, rest2) =>
          match expPart rest2 with
          | none => none
          | some (ep, rest3) => some (signAndRest.1 ++ c :: ds ++ fp ++ ep, rest3)
    else none

/-- The three obligations of the recursive descent: a value, the items of a
non-empty array (positioned after the opening bracket and any whitespace),
and the members of a non-empty object (likewise).  Folding them into one
task type keeps the parser a single structural recursion on fuel, which the
kernel can evaluate. -/
inductive PTask where
  | val (cs : List Char)
  | items (cs : List Char)
  | members (cs : List Char)

def parseStep (fuel : Nat) (t : PTask) : Option (Json × List Char) :=
  match fuel with
  | 0 => none
  | fuel + 1 =>
    match t with
    | .val cs =>
      match cs with
      | [] => none
      | c :: rest =>
        if c = '"' then
          match parseStrAux (cs.length + 1) rest with
          | some (acc, rem) => some (Json.str (String.mk acc), rem)
          | none => none
        else if c = '{' then
          match skipWs rest with
          | '}' :: rem => some (Json.obj [], rem)
          | cs2 => parseStep fuel (.members cs2)
        else if c = '[' then
          match skipWs rest with
          | ']' :: rem => some (Json.arr [], rem)
          | cs2 => parseStep fuel (.items cs2)
        else if c = 't' then
          match rest with
          | 'r' :: 'u' :: 'e' :: rem => some (Json.bool true, rem)
          | _ => none
        else if c = 'f' then
          match rest with
          | 'a' :: 'l' :: 's' :: 'e' :: rem => some (Json.bool false, rem)
          | _ => none
        else if c = 'n' then
          match rest with
          | 'u' :: 'l' :: 'l' :: rem => some (Json.null, rem)
          | _ => none
        else
          match parseNumLexeme cs with
          | some (lex, rem) => some (Json.num (String.mk lex), rem)
          | none => none
    | .items cs =>
      match parseStep fuel (.val (skipWs cs)) with
      | none => none
      | some (v, rem) =>
        match skipWs rem with
        | ',' :: rem2 =>
          match parseStep fuel (.items rem2) with
          | some (Json.arr vs, rem3) => some (Json.arr (v :: vs), rem3)
          | _ => none
        | ']' :: rem2 => some (Json.arr [v], rem2)
        | _ => none
    | .members cs =>
      match skipWs cs with
      | '"' :: rest =>
        match parseStrAux (cs.length + 1) rest with
        | none => none
        | some (key, rem) =>
          match skipWs rem with
          | ':' :: rem2 =>
            match parseStep fuel (.val (skipWs rem2)) with
            | none => none
            | some (v, rem3) =>
              match skipWs rem3 with
              | ',' :: rem4 =>
                match parseStep fuel (.members rem4) with
                | some (Json.obj ms, rem5) => some (Json.obj ((String.mk key, v) :: ms), rem5)
                | _ => none
              | '}' :: rem4 => some (Json.obj [(String.mk key, v)], rem4)
              | _ => none
          | _ => none
      | _ => none

/-- The model of `JSON.parse`: parse one value surrounded by insignificant
whitespace, requiring the whole input to be consumed; `none` models the
`SyntaxError` that `JSON.parse` throws.  The fuel bound `3 * length + 8` is
generous: every recursive step is separated by at most two fuel decrements
per consumed input character. -/
def parseJson (s : String) : Option Json :=
  match parseStep (3 * s.data.length + 8) (.val (skipWs s.data)) with
  | some (v, rem) => if skipWs rem = [] then some v else none
  | none => none

/-! ## Response parsing and repair (`parseTestQuestionsResponse`,
`parseMarkingResponse` in `src/services/llm.ts`)

Thrown `Error` objects are modelled as `Except.error` carrying the thrown
message string; both parse entry points only ever throw plain `Error`s. -/

def noContentQuestionsMsg : String := "No content from LLM for test questions."

def unparseableQuestionsMsg : String := "Failed to parse JSON response for test questions"

def noMarkingMsg : String := "No marking feedback returned by LLM."

def unparseableMarkingMsg : String := "Failed to parse LLM marking JSON output."

/-- Keep the prefix of `s` up to and including its last closing brace;
`s` unchanged when it has none.  Models `lastIndexOf` followed by
`slice(0, lastBrace + 1)` guarded by `lastBrace !== -1`. -/
def truncToLastBrace (s : String) : String :=
  let r := s.data.reverse.dropWhile (fun c => c != '\x7d')
  if r.isEmpty then s else String.mk r.reverse

/-- The code-fence stripping stage of `parseTestQuestionsResponse`: trim,
drop a leading three-backtick-json marker (exactly that marker, seven
characters), drop a trailing three-backtick marker, trimming after each. -/
def stripQuestionFences (raw : String) : String :=
  let s1 := jsTrim raw
  let s2 := if beginsWith s1 "```json" then jsTrim (strDrop s1 7) else s1
  if finishesWith s2 "```" then jsTrim (strDropLast s2 3) else s2

/-- The full repair pipeline of `parseTestQuestionsResponse`: fence
stripping, truncation back to the last closing brace, and a synthetic
closing brace when none remains. -/
def repairQuestionJson (raw : String) : String :=
  let s4 := truncToLastBrace (stripQuestionFences raw)
  if finishesWith s4 "\x7d" then s4 else s4 ++ "\x7d"

/-- `parseTestQuestionsResponse` of `src/services/llm.ts`: guard against
empty content, repair, then `JSON.parse` (the parsed value is returned
uninspected, matching the unchecked TypeScript cast). -/
def parseTestQuestionsResponse (rawContent : String) : Except String Json :=
  if rawContent = "" then .error noContentQuestionsMsg
  else
    match parseJson (repairQuestionJson rawContent) with
    | some v => .ok v
    | none => .error unparseableQuestionsMsg

def isLowerAlpha (c : Char) : Bool := 'a' ≤ c && c ≤ 'z'

/-- The regex replace of a leading fence in `parseMarkingResponse`:
three backticks, a greedy run of lowercase letters, and an optional
newline, removed from the front.  Only applied to strings already known to
begin with three backticks, so the regex always matches at the start. -/
def stripMarkingFenceFront (s : String) : String :=
  let cs := (s.data.drop 3).dropWhile isLowerAlpha
  String.mk (match cs with
    | '\n' :: rest => rest
    | _ => cs)

/-- `parseMarkingResponse` of `src/services/llm.ts`: guard against missing
feedback, strip any leading fence with an optional language tag and a
trailing fence, then `JSON.parse` uninspected. -/
def parseMarkingResponse (feedback : String) : Except String Json :=
  if feedback = "" then .error noMarkingMsg
  else
    let f1 := jsTrim feedback
    let f2 :=
      if beginsWith f1 "```" then
        let a := stripMarkingFenceFront f1
        jsTrim (if finishesWith a "```" then strDropLast a 3 else a)
      else f1
    match parseJson f2 with
    | some v => .ok v
    | none => .error unparseableMarkingMsg

/-! ## Mark-weight resolution (`markTestAnswers`, `src/services/llm.ts`
lines 139-151) -/

/-- The last three significant characters, read from a reversed character
list: a closing parenthesis, one digit, an opening parenthesis. -/
def trailingParenDigit : List Char → Option Nat
  | c1 :: d :: c2 :: _ =>
    if c1 = ')' ∧ c2 = '(' ∧ d.isDigit then some (d.toNat - '0'.toNat) else none
  | _ => none

/-- The digit of a trailing parenthesized single-digit suffix, per the regex
match against a parenthesis, one digit, a parenthesis, then only whitespace
to the end of the string; `none` when the regex does not match. -/
def trailingMarksDigit (question : String) : Option Nat :=
  trailingParenDigit (question.data.reverse.dropWhile isJsWs)

/-- Per-question weight resolution in the grading prompt loop: a trailing
"(n)" suffix with n in one, two, three wins; otherwise the categorical type
field decides ("long" is two, "extended" is three); otherwise one.  The
categorical field is carried as an optional string, matching the
JavaScript strict-equality comparisons at runtime. -/
def resolveMaxMarks (question : String) (qtype : Option String) : Nat :=
  let fallback := if qtype = some "long" then 2
    else if qtype = some "extended" then 3 else 1
  match trailingMarksDigit question with
  | some n => if n = 1 ∨ n = 2 ∨ n = 3 then n else fallback
  | none => fallback

/-- The weight a valid suffix alone resolves to, when one is present. -/
def validSuffixWeight (question : String) : Option Nat :=
  match trailingMarksDigit question with
  | some n => if n = 1 ∨ n = 2 ∨ n = 3 then some n else none
  | none => none

/-! ## Data model (from `src/models/types.ts` and `main.ts`) -/

structure TestStatus where
  testsReady : Bool
  passed : Nat
  total : Nat

structure IndexedNote where
  filePath : String
  content : String
  testStatus : TestStatus

/-- A question-and-answer pair as passed to `markTestAnswers`.  The
optional categorical type field is a string at the JavaScript runtime. -/
structure QnaPair where
  question : String
  answer : String
  qtype : Option String

/-! ## Prompt formatter (`src/services/formatter.ts`) -/

def formatterHeader : String := "Generate test questions based on the following notes.\n\n"

def formatterFooter : String :=
  "Ensure that the test questions are relevant to the content and test key concepts."

/-- The block appended for one note: a header naming its path, then its
full content. -/
def noteBlock (note : IndexedNote) : String :=
  "### Note: " ++ note.filePath ++ "\nContent:\n" ++ note.content ++ "\n\n"

/-- `formatNotesForLLM` of `src/services/formatter.ts`, written as the same
left-to-right accumulation the source's `forEach` performs. -/
def formatNotesForLLM (notes : List IndexedNote) : String :=
  (notes.foldl (fun prompt note => prompt ++ noteBlock note) formatterHeader) ++ formatterFooter

/-! ## Errors and the orchestrators (`generateTestQuestions`,
`markTestAnswers` in `src/services/llm.ts`)

A thrown JavaScript error is either an instance of the dedicated
`ContextLengthExceededError` subclass or a plain `Error`; both carry a
message.  The outbound HTTP call of the dispatched adapter is abstracted as
an injected outcome (raw completion text, or a thrown error), and each
orchestrator additionally reports the user prompt of every HTTP request
attempted (zero or one of them), which makes "fails before any network
call" a statement about the model. -/

inductive JsError where
  | contextLength (msg : String)
  | generic (msg : String)
  deriving DecidableEq

def missingKeyMsg (provider : String) : String :=
  "Missing API key for " ++ provider ++ "! Please set it in the plugin settings."

def tooLargeMsg : String :=
  "The document is too large for the model's context window. Please split your document into smaller sections."

/-- `getApiKey` of `src/services/llm.ts`: `apiKeys[provider] || ""`. -/
def getApiKey (provider : String) (apiKeys : List (String × String)) : String :=
  match apiKeys.lookup provider with
  | some k => k
  | none => ""

/-- The shared catch block of both orchestrators: a
`ContextLengthExceededError` is rethrown unchanged; a plain error whose
message mentions a known context-overflow phrase is converted to a
`ContextLengthExceededError` with a fixed message; anything else is
rethrown unchanged. -/
def catchTransform (e : JsError) : JsError :=
  match e with
  | .contextLength m => .contextLength m
  | .generic m =>
    if strIncludes m "context_length_exceeded" || strIncludes m "maximum context length"
    then .contextLength tooLargeMsg
    else .generic m

/-- The providers the dispatch switch has a case for. -/
def dispatchSupported (provider : String) : Bool :=
  provider = "openai" || provider = "anthropic" || provider = "deepseek" ||
  provider = "gemini" || provider = "mistral" || provider = "ollama"

/-- The cloud providers, which require an API key. -/
def cloudProviders : List String :=
  ["openai", "anthropic", "deepseek", "gemini", "mistral"]

/-- `generateTestQuestions` of `src/services/llm.ts`.  The notes determine
only the prompt text sent to the adapter (via `formatNotesForLLM`), never
the control flow, so the injected `adapterOutcome` abstracts the dispatched
adapter's HTTP call; the second component lists the user prompt of each HTTP request attempted
(empty or a single entry).  The unsupported-provider throw sits inside the
try block, hence passes through the catch transform. -/
def generateTestQuestions (indexedNotes : List IndexedNote) (provider : String)
    (apiKeys : List (String × String)) (adapterOutcome : Except JsError String) :
    Except JsError Json × List String :=
  let apiKey := getApiKey provider apiKeys
  let notesPrompt := formatNotesForLLM indexedNotes
  if provider ≠ "ollama" ∧ apiKey = "" then
    (.error (.generic (missingKeyMsg provider)), [])
  else if dispatchSupported provider then
    match adapterOutcome with
    | .error e => (.error (catchTransform e), [notesPrompt])
    | .ok raw =>
      match parseTestQuestionsResponse raw with
      | .ok v => (.ok v, [notesPrompt])
      | .error m => (.error (catchTransform (.generic m)), [notesPrompt])
  else
    (.error (catchTransform (.generic ("Unsupported provider: " ++ provider))), [])

/-- The text substituted for an empty answer in the grading prompt. -/
def answerText (a : String) : String := if a = "" then "[No answer provided]" else a

/-- One line-group of the grading prompt, as built in the `forEach` loop of
`markTestAnswers`, embedding the resolved mark weight. -/
def qnaLine (idx : Nat) (pair : QnaPair) : String :=
  "Q" ++ Nat.repr (idx + 1) ++ " (maxMarks=" ++
    Nat.repr (resolveMaxMarks pair.question pair.qtype) ++ "): " ++
    pair.question ++ "\nAnswer: " ++ answerText pair.answer ++ "\n\n"

/-- The user prompt of `markTestAnswers`: source document, then the
numbered question-and-answer lines, then the fixed instructions. -/
def buildMarkingPrompt (noteContent : String) (qnaPairs : List QnaPair) : String :=
  let base := "SOURCE DOCUMENT:\n" ++ noteContent ++ "\n\nUSER ANSWERS:\n"
  let body := ((List.range qnaPairs.length).zip qnaPairs).foldl
    (fun acc p => acc ++ qnaLine p.1 p.2) base
  body ++ "Please return a JSON array of objects, each with \x7b \"questionNumber\", \"marks\", \"maxMarks\", \"feedback\" \x7d. \nMarks should reflect the quality of the answer (0 = no credit, maxMarks = full credit, with partial marks possible).\nNo extra fields, no markdown code blocks."

/-- `markTestAnswers` of `src/services/llm.ts`, abstracted over the
dispatched adapter's HTTP outcome exactly as `generateTestQuestions` is;
the grading prompt built from the pairs (with resolved weights) determines
only what is sent. -/
def markTestAnswers (noteContent : String) (qnaPairs : List QnaPair) (provider : String)
    (apiKeys : List (String × String)) (adapterOutcome : Except JsError String) :
    Except JsError Json × List String :=
  let apiKey := getApiKey provider apiKeys
  let userPrompt := buildMarkingPrompt noteContent qnaPairs
  if provider ≠ "ollama" ∧ apiKey = "" then
    (.error (.generic (missingKeyMsg provider)), [])
  else if dispatchSupported provider then
    match adapterOutcome with
    | .error e => (.error (catchTransform e), [userPrompt])
    | .ok raw =>
      match parseMarkingResponse raw with
      | .ok v => (.ok v, [userPrompt])
      | .error m => (.error (catchTransform (.generic m)), [userPrompt])
  else
    (.error (catchTransform (.generic ("Unsupported provider: " ++ provider))), [])

/-! ## OpenAI adapter request shape (`callOpenAI`, `src/services/llm.ts`)

`callOpenAI` builds its request body with pure string and arithmetic
operations before the single HTTP call; that body construction is embedded
here.  The constant temperature 0.7 of the non-reasoning branch is carried
as the rational seven tenths. -/

structure ChatMessage where
  role : String
  content : String
  deriving DecidableEq

structure OpenAIRequestBody where
  model : String
  messages : List ChatMessage
  max_completion_tokens : Option Nat
  max_tokens : Option Nat
  temperature : Option ℚ
  deriving DecidableEq

/-- A model name carrying a reasoning-model prefix. -/
def isReasoningModel (model : String) : Bool :=
  beginsWith model "o1-" || beginsWith model "o3-" || beginsWith model "gpt-5"

/-- The condition under which `callOpenAI` merges the system text into the
single user message: a reasoning model whose name contains "preview", or
contains "mini" while not containing "o3" (JavaScript conjunction binding
tighter than disjunction). -/
def mergeSystemIntoUser (model : String) : Bool :=
  isReasoningModel model &&
    (strIncludes model "preview" || (strIncludes model "mini" && !(strIncludes model "o3")))

/-- The request body `callOpenAI` sends: merged or role-separated messages,
and either `max_completion_tokens` with the four-fold floor-4000 budget (no
temperature) for reasoning models, or `max_tokens` with the nominal budget
and temperature 0.7 otherwise. -/
def buildOpenAIRequestBody (systemMessage userPrompt model : String)
    (maxTokens : Nat) : OpenAIRequestBody :=
  let messages :=
    if mergeSystemIntoUser model then
      [{ role := "user", content := systemMessage ++ "\n\n" ++ userPrompt }]
    else
      [{ role := "system", content := systemMessage },
       { role := "user", content := userPrompt }]
  if isReasoningModel model then
    { model := model, messages := messages,
      max_completion_tokens := some (max (maxTokens * 4) 4000),
      max_tokens := none, temperature := none }
  else
    { model := model, messages := messages,
      max_completion_tokens := none,
      max_tokens := some maxTokens, temperature := some (7 / 10 : ℚ) }

/-! ## Caller-side aggregate scoring (`handleMarkButtonClick`,
`src/ui/QuestionView.ts`)

The view walks its `markResults` array, whose slots hold either a marking
result or null, accumulates total possible and earned marks, and shows
`(totalEarnedMarks / totalPossibleMarks) * 100` guarded by the truthiness
of `totalPossibleMarks` (zero is falsy, giving "0.0").  Marks are JavaScript
numbers and may be fractional, so they are embedded as rationals; the
`toFixed(1)` applied to the quotient is display formatting and is not part
of the aggregate value. -/

structure MarkResult where
  marks : ℚ
  maxMarks : ℚ
  feedback : String

/-- The accumulation loop: total possible marks, then total earned marks,
skipping null slots. -/
def sumTotals (results : List (Option MarkResult)) : ℚ × ℚ :=
  results.foldl
    (fun acc r =>
      match r with
      | some res => (acc.1 + res.maxMarks, acc.2 + res.marks)
      | none => acc)
    (0, 0)

/-- The aggregate percentage with the zero-total guard. -/
def aggregatePercentage (results : List (Option MarkResult)) : ℚ :=
  let t := sumTotals results
  if t.1 = 0 then 0 else t.2 / t.1 * 100

/-! ## Concrete fixtures named by the claims -/

/-- The truncated completion of the truncation-repair scenario: the inner
question object is closed, the questions array and the outer object are
not. -/
def truncatedQuestionInput : String :=
  "\x7b\"description\":\"d\",\"questions\":[\x7b\"question\":\"Q1? (1)\",\"type\":\"short\"\x7d"

/-- Well-formed question-set JSON wrapped in a bare fence with no language
tag. -/
def bareFencedQuestions : String :=
  "```\n\x7b\"description\":\"d\",\"questions\":[]\x7d\n```"

/-- The same question-set JSON with no fence. -/
def innerQuestionsJson : String := "\x7b\"description\":\"d\",\"questions\":[]\x7d"

/-- Well-formed grading JSON wrapped in a bare fence with no language
tag. -/
def bareFencedGrades : String :=
  "```\n[\x7b\"questionNumber\":1,\"marks\":1,\"maxMarks\":1,\"feedback\":\"Correct\"\x7d]\n```"

/-- Concatenation of a list of strings, used to state the formatter's
output decomposition. -/
def concatAll : List String → String
  | [] => ""
  | b :: bs => b ++ concatAll bs

/-! ## Helper lemmas -/

theorem dropWhile_cons_false {p : Char → Bool} {c : Char} {t : List Char}
    (h : p c = false) : List.dropWhile p (c :: t) = c :: t := by
  simp [List.dropWhile_cons, h]

theorem stringMk_data (s : String) : String.mk s.data = s := rfl

/-- A string whose first and last characters are not JavaScript whitespace
is its own trim. -/
theorem jsTrim_eq_self {s : String} {c d : Char} {t u : List Char}
    (h1 : s.data = c :: t) (h2 : s.data.reverse = d :: u)
    (hc : isJsWs c = false) (hd : isJsWs d = false) : jsTrim s = s := by
  unfold jsTrim
  rw [h1, dropWhile_cons_false hc, ← h1, h2, dropWhile_cons_false hd, ← h2,
    List.reverse_reverse, stringMk_data]

theorem singleton_isPrefixOf {c : Char} {l : List Char}
    (h : List.isPrefixOf [c] l = true) : ∃ t, l = c :: t := by
  cases l with
  | nil => simp [List.isPrefixOf] at h
  | cons a t =>
    simp [List.isPrefixOf] at h
    exact ⟨t, by rw [h]⟩

/-- The formatter's left fold, peeled off an arbitrary accumulator. -/
theorem foldl_noteBlock (notes : List IndexedNote) (a : String) :
    List.foldl (fun prompt note => prompt ++ noteBlock note) a notes
      = a ++ concatAll (notes.map noteBlock) := by
  induction notes generalizing a with
  | nil => simp [concatAll]
  | cons n ns ih =>
    simp only [List.foldl_cons, List.map_cons, concatAll]
    rw [ih, String.append_assoc]

/-- C7: for every ordered sequence of documents, `formatNotesForLLM` returns
exactly the fixed opening instruction line, followed by, for each document
in input order, its block (a header naming its path, then its full
content), followed by the fixed closing instruction line.  The
decomposition of the output as the image of `List.map` over the input is
also what makes order preservation and permutation-equivariance explicit:
the block sequence is the input sequence mapped through `noteBlock`. -/
theorem c7_formatter_structure (notes : List IndexedNote) :
    formatNotesForLLM notes
      = formatterHeader ++ concatAll (notes.map noteBlock) ++ formatterFooter := by
  unfold formatNotesForLLM
  rw [foldl_noteBlock]

/-- The accumulation loop of the score aggregation, over slots that are all
filled, peeled off an arbitrary accumulator. -/
theorem sumTotals_aux (rs : List MarkResult) (p : ℚ × ℚ) :
    List.foldl
      (fun acc r =>
        match r with
        | some res => (acc.1 + res.maxMarks, acc.2 + res.marks)
        | none => acc)
      p (rs.map some)
      = (p.1 + (rs.map MarkResult.maxMarks).sum, p.2 + (rs.map MarkResult.marks).sum) := by
  induction rs generalizing p with
  | nil => simp
  | cons r rs ih => simp [ih, add_assoc]

theorem sumTotals_map_some (rs : List MarkResult) :
    sumTotals (rs.map some)
      = ((rs.map MarkResult.maxMarks).sum, (rs.map MarkResult.marks).sum) := by
  unfold sumTotals
  rw [sumTotals_aux]
  simp

/-- C6: over any sequence of marking results, the aggregate percentage is
total earned marks over total possible marks times one hundred whenever the
total possible is positive, and the zero-total guard yields zero for the
empty sequence and for a sequence whose possible marks are all zero, with
no division by zero. -/
theorem c6_aggregate_score (rs : List MarkResult) :
    (0 < (rs.map MarkResult.maxMarks).sum →
      aggregatePercentage (rs.map some)
        = (rs.map MarkResult.marks).sum / (rs.map MarkResult.maxMarks).sum * 100) ∧
    aggregatePercentage [] = 0 ∧
    ((∀ r ∈ rs, r.maxMarks = 0) → aggregatePercentage (rs.map some) = 0) := by
  refine ⟨?_, ?_, ?_⟩
  · intro h
    unfold aggregatePercentage
    rw [sumTotals_map_some]
    simp [ne_of_gt h]
  · rfl
  · intro h
    have hz : (rs.map MarkResult.maxMarks).sum = 0 := by
      apply List.sum_eq_zero
      intro x hx
      obtain ⟨r, hr, hrx⟩ := List.mem_map.mp hx
      rw [← hrx]; exact h r hr
    unfold aggregatePercentage
    rw [sumTotals_map_some]
    simp [hz]

/-- C6 witness: the fixture sequence earning two of two, one of three and
zero of one marks aggregates to fifty percent, and its total possible marks
are positive. -/
theorem c6_aggregate_score_witness :
    aggregatePercentage ([⟨2, 2, "a"⟩, ⟨1, 3, "b"⟩, ⟨0, 1, "c"⟩].map some) = 50 := by
  have h := (c6_aggregate_score [⟨2, 2, "a"⟩, ⟨1, 3, "b"⟩, ⟨0, 1, "c"⟩]).1
    (by norm_num)
  rw [h]
  norm_num

/-- A trailing parenthesized digit suffix is found by the regex model no
matter what precedes it. -/
theorem trailingMarksDigit_suffix (s : String) (d : Char) (hd : d.isDigit = true) :
    trailingMarksDigit (s ++ "(" ++ String.mk [d] ++ ")") = some (d.toNat - '0'.toNat) := by
  unfold trailingMarksDigit
  rw [String.data_append, String.data_append, String.data_append]
  have h1 : ("(" : String).data = ['('] := rfl
  have h2 : (")" : String).data = [')'] := rfl
  have h3 : (String.mk [d]).data = [d] := rfl
  rw [h1, h2, h3]
  have hrev : (s.data ++ ['('] ++ [d] ++ [')']).reverse
      = ')' :: d :: '(' :: s.data.reverse := by
    simp
  rw [hrev, dropWhile_cons_false (by decide)]
  simp [trailingParenDigit, hd]

/-- C1: weight resolution precedence.  A question text ending in a
parenthesized digit suffix whose digit is one, two or three resolves to
that digit regardless of the categorical type field; a question with no
valid suffix resolves through the categorical field, two for "long", three
for "extended", and one otherwise. -/
theorem c1_weight_resolution (s : String) (t : Option String) (n : Nat)
    (hn : n = 1 ∨ n = 2 ∨ n = 3) :
    resolveMaxMarks (s ++ "(" ++ Nat.repr n ++ ")") t = n ∧
    (validSuffixWeight s = none →
      resolveMaxMarks s t =
        if t = some "long" then 2 else if t = some "extended" then 3 else 1) := by
  constructor
  · have key : ∀ (d : Char), d.isDigit = true → (d.toNat - '0'.toNat = n) →
        resolveMaxMarks (s ++ "(" ++ String.mk [d] ++ ")") t = n := by
      intro d hd hval
      have hm := trailingMarksDigit_suffix s d hd
      rw [hval] at hm
      unfold resolveMaxMarks
      rw [hm]
      simp only []
      rcases hn with h | h | h <;> subst h <;> simp
    rcases hn with h | h | h <;> subst h
    · have : Nat.repr 1 = String.mk ['1'] := by decide
      rw [this]; exact key '1' (by decide) (by decide)
    · have : Nat.repr 2 = String.mk ['2'] := by decide
      rw [this]; exact key '2' (by decide) (by decide)
    · have : Nat.repr 3 = String.mk ['3'] := by decide
      rw [this]; exact key '3' (by decide) (by decide)
  · intro hv
    unfold validSuffixWeight at hv
    unfold resolveMaxMarks
    cases h : trailingMarksDigit s with
    | none => simp [h]
    | some m =>
      rw [h] at hv
      by_cases hm : m = 1 ∨ m = 2 ∨ m = 3
      · simp [hm] at hv
      · simp [h, hm]

/-- C1 witness: a question ending in "(3)" but typed "long" resolves to
three, and a suffixless question typed "long" resolves to two. -/
theorem c1_weight_resolution_witness :
    resolveMaxMarks ("Explain X. " ++ "(" ++ Nat.repr 3 ++ ")") (some "long") = 3 ∧
    resolveMaxMarks "What is Y?" (some "long") = 2 := by
  constructor
  · exact (c1_weight_resolution "Explain X. " (some "long") 3 (by tauto)).1
  · have h := (c1_weight_resolution "What is Y?" (some "long") 3 (by tauto)).2 (by decide)
    simpa using h

/-- C8 counterexample: "o3-mini" is a reasoning model and a mini
sub-variant, yet its request body keeps a separate system role — the merge
condition excludes mini variants whose name also contains "o3", so the
claim that every preview or mini sub-variant merges the system text into
the user message is false at this model name. -/
theorem c8_counterexample :
    isReasoningModel "o3-mini" = true ∧
    strIncludes "o3-mini" "mini" = true ∧
    (buildOpenAIRequestBody "S" "U" "o3-mini" 500).messages
      = [{ role := "system", content := "S" }, { role := "user", content := "U" }] := by
  refine ⟨by decide, by decide, by decide⟩

/-- C8 as amended: a reasoning-prefixed model always requests
`max_completion_tokens` of four times the nominal budget floored at four
thousand (hence at least four times the nominal budget) and no `max_tokens`;
the system text is merged into a single user message for the preview
sub-variants and for mini sub-variants whose name does not also contain
"o3"; a non-reasoning model requests `max_tokens` equal to the nominal
budget with separate system and user messages. -/
theorem c8_request_shape (sys usr model : String) (maxTokens : Nat) :
    (isReasoningModel model = true →
      (buildOpenAIRequestBody sys usr model maxTokens).max_completion_tokens
          = some (max (maxTokens * 4) 4000) ∧
      (buildOpenAIRequestBody sys usr model maxTokens).max_tokens = none ∧
      maxTokens * 4 ≤ max (maxTokens * 4) 4000) ∧
    (isReasoningModel model = true →
      strIncludes model "preview" = true ∨
        (strIncludes model "mini" = true ∧ strIncludes model "o3" = false) →
      (buildOpenAIRequestBody sys usr model maxTokens).messages
        = [{ role := "user", content := sys ++ "\n\n" ++ usr }]) ∧
    (isReasoningModel model = false →
      (buildOpenAIRequestBody sys usr model maxTokens).max_tokens = some maxTokens ∧
      (buildOpenAIRequestBody sys usr model maxTokens).max_completion_tokens = none ∧
      (buildOpenAIRequestBody sys usr model maxTokens).messages
        = [{ role := "system", content := sys }, { role := "user", content := usr }]) := by
  refine ⟨?_, ?_, ?_⟩
  · intro h
    refine ⟨?_, ?_, Nat.le_max_left _ _⟩ <;> simp [buildOpenAIRequestBody, h]
  · intro h hsub
    have hm : mergeSystemIntoUser model = true := by
      unfold mergeSystemIntoUser
      rcases hsub with h1 | ⟨h2, h3⟩
      · simp [h, h1]
      · simp [h, h2, h3]
    simp [buildOpenAIRequestBody, h, hm]
  · intro h
    have hm : mergeSystemIntoUser model = false := by
      simp [mergeSystemIntoUser, h]
    simp [buildOpenAIRequestBody, h, hm]

/-- C8 witness: at the preview reasoning model "o1-preview" with a nominal
budget of five hundred the body carries `max_completion_tokens` four
thousand and a single merged user message. -/
theorem c8_request_shape_witness :
    (buildOpenAIRequestBody "S" "U" "o1-preview" 500).max_completion_tokens = some 4000 ∧
    (buildOpenAIRequestBody "S" "U" "o1-preview" 500).messages
      = [{ role := "user", content := "S" ++ "\n\n" ++ "U" }] := by
  constructor
  · have h := ((c8_request_shape "S" "U" "o1-preview" 500).1 (by decide)).1
    rw [h]; norm_num
  · exact (c8_request_shape "S" "U" "o1-preview" 500).2.1 (by decide) (Or.inl (by decide))

/-- Unfolding of `generateTestQuestions` past its guards when the key is
present or the provider local, for an adapter that failed. -/
theorem generate_adapter_error {notes : List IndexedNote} {provider : String}
    {apiKeys : List (String × String)} (e : JsError)
    (hguard : ¬(provider ≠ "ollama" ∧ getApiKey provider apiKeys = ""))
    (hdisp : dispatchSupported provider = true) :
    generateTestQuestions notes provider apiKeys (.error e)
      = (.error (catchTransform e), [formatNotesForLLM notes]) := by
  unfold generateTestQuestions
  rw [if_neg hguard, if_pos hdisp]

/-- Unfolding of `generateTestQuestions` past its guards for an adapter
that returned raw completion text. -/
theorem generate_adapter_ok {notes : List IndexedNote} {provider : String}
    {apiKeys : List (String × String)} (raw : String)
    (hguard : ¬(provider ≠ "ollama" ∧ getApiKey provider apiKeys = ""))
    (hdisp : dispatchSupported provider = true) :
    generateTestQuestions notes provider apiKeys (.ok raw)
      = (match parseTestQuestionsResponse raw with
         | .ok v => (.ok v, [formatNotesForLLM notes])
         | .error m => (.error (catchTransform (.generic m)), [formatNotesForLLM notes])) := by
  unfold generateTestQuestions
  rw [if_neg hguard, if_pos hdisp]

/-- Unfolding of `markTestAnswers` past its guards, for an adapter that
failed. -/
theorem mark_adapter_error {noteContent : String} {pairs : List QnaPair}
    {provider : String} {apiKeys : List (String × String)} (e : JsError)
    (hguard : ¬(provider ≠ "ollama" ∧ getApiKey provider apiKeys = ""))
    (hdisp : dispatchSupported provider = true) :
    markTestAnswers noteContent pairs provider apiKeys (.error e)
      = (.error (catchTransform e), [buildMarkingPrompt noteContent pairs]) := by
  unfold markTestAnswers
  rw [if_neg hguard, if_pos hdisp]

/-- Unfolding of `markTestAnswers` past its guards, for an adapter that
returned raw completion text. -/
theorem mark_adapter_ok {noteContent : String} {pairs : List QnaPair}
    {provider : String} {apiKeys : List (String × String)} (raw : String)
    (hguard : ¬(provider ≠ "ollama" ∧ getApiKey provider apiKeys = ""))
    (hdisp : dispatchSupported provider = true) :
    markTestAnswers noteContent pairs provider apiKeys (.ok raw)
      = (match parseMarkingResponse raw with
         | .ok v => (.ok v, [buildMarkingPrompt noteContent pairs])
         | .error m => (.error (catchTransform (.generic m)), [buildMarkingPrompt noteContent pairs])) := by
  unfold markTestAnswers
  rw [if_neg hguard, if_pos hdisp]

/-- C3: with a cloud provider and an empty resolved API key, both
orchestrators fail with the missing-credentials error and attempt no HTTP
request (the attempted-request list is empty); with the local provider and
an empty key, both orchestrators always reach the adapter, issuing exactly
one HTTP request carrying the built prompt, whatever the adapter outcome. -/
theorem c3_credential_gating (provider : String) (notes : List IndexedNote)
    (noteContent : String) (pairs : List QnaPair) (apiKeys : List (String × String))
    (outcome : Except JsError String)
    (hcloud : provider ∈ cloudProviders) (hkey : getApiKey provider apiKeys = "") :
    generateTestQuestions notes provider apiKeys outcome
        = (.error (.generic (missingKeyMsg provider)), []) ∧
    markTestAnswers noteContent pairs provider apiKeys outcome
        = (.error (.generic (missingKeyMsg provider)), []) ∧
    ∀ (apiKeys2 : List (String × String)) (outcome2 : Except JsError String),
      getApiKey "ollama" apiKeys2 = "" →
      (generateTestQuestions notes "ollama" apiKeys2 outcome2).2
          = [formatNotesForLLM notes] ∧
      (markTestAnswers noteContent pairs "ollama" apiKeys2 outcome2).2
          = [buildMarkingPrompt noteContent pairs] := by
  have hne : provider ≠ "ollama" := by
    intro heq
    rw [heq] at hcloud
    exact absurd hcloud (by decide)
  refine ⟨?_, ?_, ?_⟩
  · unfold generateTestQuestions
    rw [if_pos ⟨hne, hkey⟩]
  · unfold markTestAnswers
    rw [if_pos ⟨hne, hkey⟩]
  · intro apiKeys2 outcome2 _
    have hguard : ¬(("ollama" : String) ≠ "ollama" ∧ getApiKey "ollama" apiKeys2 = "") :=
      fun hc => hc.1 rfl
    have hdisp : dispatchSupported "ollama" = true := by decide
    constructor
    · cases outcome2 with
      | error e => rw [generate_adapter_error e hguard hdisp]
      | ok raw =>
        rw [generate_adapter_ok raw hguard hdisp]
        cases hp : parseTestQuestionsResponse raw <;> simp [hp]
    · cases outcome2 with
      | error e => rw [mark_adapter_error e hguard hdisp]
      | ok raw =>
        rw [mark_adapter_ok raw hguard hdisp]
        cases hp : parseMarkingResponse raw <;> simp [hp]

/-- C3 witness: generation with the cloud provider "openai" and no stored
key fails with the missing-credentials error and attempts no request. -/
theorem c3_credential_gating_witness :
    generateTestQuestions [] "openai" [] (Except.ok "x")
      = (.error (.generic (missingKeyMsg "openai")), []) :=
  (c3_credential_gating "openai" [] "" [] [] (Except.ok "x") (by decide) (by decide)).1

/-- C4 counterexample: an adapter failure carrying the plain message "boom"
under provider "openai" and model "gpt-4o" reaches the caller entirely
unchanged — it is not wrapped in any structure naming the provider or
model, and its message mentions neither, so the claimed
provider-call-failed wrapping does not exist in the code. -/
theorem c4_counterexample :
    (generateTestQuestions [] "openai" [("openai", "k")]
        (Except.error (JsError.generic "boom"))).1
      = Except.error (JsError.generic "boom") ∧
    strIncludes "boom" "openai" = false ∧
    strIncludes "boom" "gpt-4o" = false := by
  refine ⟨rfl, by decide, by decide⟩

/-- C4 as amended: both orchestrators pass context-length failures through
unchanged and surface the unparseable-response failure unchanged; any other
adapter failure whose message matches a known context-overflow phrase is
converted to the context-length failure with its fixed message, and every
other adapter failure is rethrown unchanged (the orchestrator adds no
provider or model information of its own). -/
theorem c4_error_propagation (provider : String) (notes : List IndexedNote)
    (noteContent : String) (pairs : List QnaPair) (apiKeys : List (String × String))
    (hdisp : dispatchSupported provider = true)
    (hkey : provider = "ollama" ∨ getApiKey provider apiKeys ≠ "") :
    (∀ m, (generateTestQuestions notes provider apiKeys (.error (.contextLength m))).1
        = .error (.contextLength m) ∧
      (markTestAnswers noteContent pairs provider apiKeys (.error (.contextLength m))).1
        = .error (.contextLength m)) ∧
    (∀ raw, parseTestQuestionsResponse raw = .error unparseableQuestionsMsg →
      (generateTestQuestions notes provider apiKeys (.ok raw)).1
        = .error (.generic unparseableQuestionsMsg)) ∧
    (∀ raw, parseMarkingResponse raw = .error unparseableMarkingMsg →
      (markTestAnswers noteContent pairs provider apiKeys (.ok raw)).1
        = .error (.generic unparseableMarkingMsg)) ∧
    (∀ m, strIncludes m "context_length_exceeded" = false →
      strIncludes m "maximum context length" = false →
      (generateTestQuestions notes provider apiKeys (.error (.generic m))).1
          = .error (.generic m) ∧
      (markTestAnswers noteContent pairs provider apiKeys (.error (.generic m))).1
          = .error (.generic m)) ∧
    (∀ m, (strIncludes m "context_length_exceeded"
          || strIncludes m "maximum context length") = true →
      (generateTestQuestions notes provider apiKeys (.error (.generic m))).1
          = .error (.contextLength tooLargeMsg) ∧
      (markTestAnswers noteContent pairs provider apiKeys (.error (.generic m))).1
          = .error (.contextLength tooLargeMsg)) := by
  have hguard : ¬(provider ≠ "ollama" ∧ getApiKey provider apiKeys = "") := by
    rcases hkey with h | h
    · exact fun hc => hc.1 h
    · exact fun hc => h hc.2
  have hq : catchTransform (.generic unparseableQuestionsMsg)
      = .generic unparseableQuestionsMsg := by decide
  have hg : catchTransform (.generic unparseableMarkingMsg)
      = .generic unparseableMarkingMsg := by decide
  refine ⟨?_, ?_, ?_, ?_, ?_⟩
  · intro m
    rw [generate_adapter_error _ hguard hdisp, mark_adapter_error _ hguard hdisp]
    exact ⟨rfl, rfl⟩
  · intro raw hraw
    rw [generate_adapter_ok raw hguard hdisp, hraw]
    simp [hq]
  · intro raw hraw
    rw [mark_adapter_ok raw hguard hdisp, hraw]
    simp [hg]
  · intro m h1 h2
    rw [generate_adapter_error _ hguard hdisp, mark_adapter_error _ hguard hdisp]
    constructor <;> simp [catchTransform, h1, h2]
  · intro m hm
    rw [generate_adapter_error _ hguard hdisp, mark_adapter_error _ hguard hdisp]
    constructor <;> simp [catchTransform, hm]

/-- C4 witness: a context-length failure from the adapter under "openai"
with a configured key reaches the caller unchanged. -/
theorem c4_error_propagation_witness :
    (generateTestQuestions [] "openai" [("openai", "k")]
        (.error (.contextLength "too big"))).1
      = .error (.contextLength "too big") :=
  ((c4_error_propagation "openai" [] "" [] [("openai", "k")] (by decide)
    (Or.inr (by decide))).1 "too big").1

/-- C2 counterexample: the empty raw input neither yields a question set
nor fails with the unparseable-response message — it fails with the
distinct no-content message, so the dichotomy claimed for every raw input
string fails at the empty string. -/
theorem c2_counterexample :
    parseTestQuestionsResponse "" = Except.error noContentQuestionsMsg ∧
    noContentQuestionsMsg ≠ unparseableQuestionsMsg :=
  ⟨rfl, by decide⟩

/-- C2 as amended: on every nonempty raw input the parser either returns a
structurally parsed value or fails with the unparseable-response message,
never any other failure; in particular the truncated fixture (which still
contains a closing brace, so the repair trims to it and appends nothing)
fails with the unparseable-response message. -/
theorem c2_parser_totality (raw : String) (hne : raw ≠ "") :
    ((∃ v, parseTestQuestionsResponse raw = Except.ok v) ∨
      parseTestQuestionsResponse raw = Except.error unparseableQuestionsMsg) ∧
    parseTestQuestionsResponse truncatedQuestionInput
      = Except.error unparseableQuestionsMsg := by
  constructor
  · unfold parseTestQuestionsResponse
    rw [if_neg hne]
    cases h : parseJson (repairQuestionJson raw) with
    | some v => exact Or.inl ⟨v, rfl⟩
    | none => exact Or.inr rfl
  · rfl

/-- C2 witness: the amended totality at the one-character input "x". -/
theorem c2_parser_totality_witness :
    (∃ v, parseTestQuestionsResponse "x" = Except.ok v) ∨
      parseTestQuestionsResponse "x" = Except.error unparseableQuestionsMsg :=
  (c2_parser_totality "x" (by decide)).1

/-- C10: the two parse entry points strip leading fences asymmetrically —
question-set JSON wrapped in a bare fence with no language tag is not
unwrapped (only the exact json-tagged marker is), so parsing fails with the
unparseable-response failure even though the identical unfenced JSON
parses; the grading parser strips a bare fence and succeeds on the
analogous grading input. -/
theorem c10_fence_asymmetry :
    parseTestQuestionsResponse bareFencedQuestions
        = Except.error unparseableQuestionsMsg ∧
    parseTestQuestionsResponse innerQuestionsJson
        = Except.ok (Json.obj [("description", Json.str "d"),
            ("questions", Json.arr [])]) ∧
    parseMarkingResponse bareFencedGrades
        = Except.ok (Json.arr [Json.obj [("questionNumber", Json.num "1"),
            ("marks", Json.num "1"), ("maxMarks", Json.num "1"),
            ("feedback", Json.str "Correct")]]) :=
  ⟨rfl, rfl, rfl⟩

/-- Dropping characters other than the closing brace from a list known to
contain one stops exactly at a closing brace. -/
theorem dropWhile_until_brace {l : List Char} (h : '\x7d' ∈ l) :
    ∃ u, l.dropWhile (fun c => c != '\x7d') = '\x7d' :: u := by
  induction l with
  | nil => cases h
  | cons c t ih =>
    by_cases hc : c = '\x7d'
    · subst hc
      exact ⟨t, by rw [dropWhile_cons_false (by decide)]⟩
    · rw [List.dropWhile_cons, if_pos (by simp [hc])]
      rcases List.mem_cons.mp h with h1 | h1
      · exact absurd h1.symm hc
      · exact ih h1

/-- A string ending in a closing brace is untouched by the truncation
repair. -/
theorem truncToLastBrace_of_ends {X : String} {u : List Char}
    (hu : X.data.reverse = '\x7d' :: u) : truncToLastBrace X = X := by
  simp only [truncToLastBrace]
  rw [hu, dropWhile_cons_false (by decide)]
  simp only [List.isEmpty_cons, Bool.false_eq_true, if_false]
  rw [← hu, List.reverse_reverse, stringMk_data]

theorem finishesWith_brace {X : String} {u : List Char}
    (hu : X.data.reverse = '\x7d' :: u) : finishesWith X "\x7d" = true := by
  unfold finishesWith
  rw [hu]
  simp [List.isPrefixOf]

/-- Once fence stripping has produced a string ending in a closing brace,
the rest of the repair is the identity. -/
theorem repairQuestionJson_of_strip {raw X : String} {u : List Char}
    (hstrip : stripQuestionFences raw = X) (hu : X.data.reverse = '\x7d' :: u) :
    repairQuestionJson raw = X := by
  simp only [repairQuestionJson]
  rw [hstrip, truncToLastBrace_of_ends hu, if_pos (finishesWith_brace hu)]

/-- C9: when the fence-stripped input contains a closing brace and its
prefix up to the last closing brace is valid JSON, the parser succeeds with
the value of that prefix, discarding all trailing characters after the last
closing brace. -/
theorem c9_trailing_text_discarded (raw : String) (v : Json)
    (hbrace : '\x7d' ∈ (stripQuestionFences raw).data)
    (hparse : parseJson (truncToLastBrace (stripQuestionFences raw)) = some v) :
    parseTestQuestionsResponse raw = Except.ok v := by
  have hne : raw ≠ "" := by
    intro h
    rw [h] at hbrace
    exact absurd hbrace (by decide)
  have hrev : '\x7d' ∈ (stripQuestionFences raw).data.reverse :=
    List.mem_reverse.mpr hbrace
  obtain ⟨u, hu⟩ := dropWhile_until_brace hrev
  have htrunc : truncToLastBrace (stripQuestionFences raw)
      = String.mk ('\x7d' :: u).reverse := by
    simp only [truncToLastBrace]
    rw [hu]
    simp
  have hfin : finishesWith (truncToLastBrace (stripQuestionFences raw)) "\x7d"
      = true := by
    rw [htrunc]
    unfold finishesWith
    simp [List.isPrefixOf]
  unfold parseTestQuestionsResponse
  rw [if_neg hne]
  simp only [repairQuestionJson]
  rw [if_pos hfin, hparse]

/-- C9 witness: a one-member JSON object followed by trailing prose parses
to that object. -/
theorem c9_trailing_text_discarded_witness :
    parseTestQuestionsResponse "\x7b\"a\":1\x7d trailing prose"
      = Except.ok (Json.obj [("a", Json.num "1")]) :=
  c9_trailing_text_discarded _ _ (by decide) rfl

/-- A string starting with an opening brace and ending with a closing
brace passes through fence stripping unchanged: it is its own trim, starts
with no fence marker and ends with none. -/
theorem stripQuestionFences_id {X : String} {t u : List Char}
    (ht : X.data = '\x7b' :: t) (hu : X.data.reverse = '\x7d' :: u) :
    stripQuestionFences X = X := by
  have htrim : jsTrim X = X := jsTrim_eq_self ht hu (by decide) (by decide)
  have hb : beginsWith X "```json" = false := by
    unfold beginsWith
    rw [ht]
    rfl
  have hf : finishesWith X "```" = false := by
    unfold finishesWith
    rw [hu]
    rfl
  simp only [stripQuestionFences]
  rw [htrim]
  simp [hb, hf]

/-- Fence stripping recovers a brace-delimited payload from the json-tagged
fence wrapping: the fence marker and the newlines around the payload are
removed by the leading-marker slice, the trailing-marker slice, and the
trims between them. -/
theorem stripQuestionFences_fenced {X : String} {t u : List Char}
    (ht : X.data = '\x7b' :: t) (hu : X.data.reverse = '\x7d' :: u) :
    stripQuestionFences ("```json\n" ++ X ++ "\n```") = X := by
  have hFdata : ("```json\n" ++ X ++ "\n```").data
      = ("```json\n" : String).data ++ (X.data ++ ("\n```" : String).data) := by
    rw [String.data_append, String.data_append, List.append_assoc]
  have hFrev : ("```json\n" ++ X ++ "\n```").data.reverse
      = ("\n```" : String).data.reverse
          ++ (X.data.reverse ++ ("```json\n" : String).data.reverse) := by
    rw [hFdata]
    simp [List.reverse_append]
  obtain ⟨bs, hbs⟩ : ∃ bs, ("```json\n" ++ X ++ "\n```").data = Char.ofNat 96 :: bs := by
    rw [hFdata]
    exact ⟨_, rfl⟩
  obtain ⟨cs, hcs⟩ : ∃ cs, ("```json\n" ++ X ++ "\n```").data.reverse
      = Char.ofNat 96 :: cs := by
    rw [hFrev]
    exact ⟨_, rfl⟩
  have htrimF : jsTrim ("```json\n" ++ X ++ "\n```") = "```json\n" ++ X ++ "\n```" :=
    jsTrim_eq_self hbs hcs (by decide) (by decide)
  have hbegin : beginsWith ("```json\n" ++ X ++ "\n```") "```json" = true := by
    unfold beginsWith
    rw [hFdata]
    rfl
  have hdrop : strDrop ("```json\n" ++ X ++ "\n```") 7
      = String.mk ('\n' :: (X.data ++ ("\n```" : String).data)) := by
    unfold strDrop
    rw [hFdata]
    rfl
  have htrim2 : jsTrim (String.mk ('\n' :: (X.data ++ ("\n```" : String).data)))
      = String.mk (X.data ++ ("\n```" : String).data) := by
    unfold jsTrim
    have e1 : List.dropWhile isJsWs ('\n' :: (X.data ++ ("\n```" : String).data))
        = X.data ++ ("\n```" : String).data := by
      rw [List.dropWhile_cons, if_pos (by decide), ht, List.cons_append,
        dropWhile_cons_false (by decide)]
    have e2 : (X.data ++ ("\n```" : String).data).reverse
        = ("\n```" : String).data.reverse ++ X.data.reverse :=
      List.reverse_append _ _
    have e3 : List.dropWhile isJsWs
          (("\n```" : String).data.reverse ++ X.data.reverse)
        = ("\n```" : String).data.reverse ++ X.data.reverse := rfl
    show String.mk (((List.dropWhile isJsWs
        ('\n' :: (X.data ++ ("\n```" : String).data))).reverse.dropWhile
          isJsWs).reverse) = _
    rw [e1, e2, e3, ← e2, List.reverse_reverse]
  have hfin2 : finishesWith (String.mk (X.data ++ ("\n```" : String).data)) "```"
      = true := by
    unfold finishesWith
    show List.isPrefixOf _ ((X.data ++ ("\n```" : String).data).reverse) = true
    rw [List.reverse_append]
    rfl
  have hdrop3 : strDropLast (String.mk (X.data ++ ("\n```" : String).data)) 3
      = String.mk (X.data ++ ['\n']) := by
    unfold strDropLast
    show String.mk (((X.data ++ ("\n```" : String).data).reverse.drop 3).reverse) = _
    rw [List.reverse_append]
    have e4 : (("\n```" : String).data.reverse ++ X.data.reverse).drop 3
        = '\n' :: X.data.reverse := rfl
    rw [e4]
    simp
  have htrim3 : jsTrim (String.mk (X.data ++ ['\n'])) = X := by
    unfold jsTrim
    have e1 : List.dropWhile isJsWs (X.data ++ ['\n']) = X.data ++ ['\n'] := by
      rw [ht, List.cons_append, dropWhile_cons_false (by decide)]
    have e2 : (X.data ++ ['\n']).reverse = '\n' :: X.data.reverse := by
      rw [List.reverse_append]
      rfl
    show String.mk (((List.dropWhile isJsWs (X.data ++ ['\n'])).reverse.dropWhile
        isJsWs).reverse) = _
    rw [e1, e2, List.dropWhile_cons, if_pos (by decide), hu,
      dropWhile_cons_false (by decide), ← hu, List.reverse_reverse, stringMk_data]
  simp only [stripQuestionFences]
  rw [htrimF]
  simp [hbegin, hdrop, htrim2, hfin2, hdrop3, htrim3]

/-- C5: fence-stripping round-trip.  For a well-formed JSON object text
(brace-delimited, parsing to a value), wrapping it in the json-tagged fence
with newlines produces exactly the same parse result as the bare text, both
succeeding with the same structured value. -/
theorem c5_fence_round_trip (X : String) (v : Json)
    (h1 : beginsWith X "\x7b" = true) (h2 : finishesWith X "\x7d" = true)
    (h3 : parseJson X = some v) :
    parseTestQuestionsResponse ("```json\n" ++ X ++ "\n```") = Except.ok v ∧
    parseTestQuestionsResponse X = Except.ok v := by
  obtain ⟨t, ht⟩ :=
    singleton_isPrefixOf (show List.isPrefixOf ['\x7b'] X.data = true from h1)
  obtain ⟨u, hu⟩ :=
    singleton_isPrefixOf (show List.isPrefixOf ['\x7d'] X.data.reverse = true from h2)
  have hXne : X ≠ "" := by
    intro h
    rw [h] at ht
    simp at ht
  have hstrip1 : stripQuestionFences X = X := stripQuestionFences_id ht hu
  have hstrip2 : stripQuestionFences ("```json\n" ++ X ++ "\n```") = X :=
    stripQuestionFences_fenced ht hu
  have hrep1 : repairQuestionJson X = X := repairQuestionJson_of_strip hstrip1 hu
  have hrep2 : repairQuestionJson ("```json\n" ++ X ++ "\n```") = X :=
    repairQuestionJson_of_strip hstrip2 hu
  have hFne : ("```json\n" ++ X ++ "\n```") ≠ "" := by
    intro h
    rw [h] at hstrip2
    exact hXne (by rw [← hstrip2]; rfl)
  constructor
  · unfold parseTestQuestionsResponse
    rw [if_neg hFne, hrep2, h3]
  · unfold parseTestQuestionsResponse
    rw [if_neg hXne, hrep1, h3]

/-- C5 witness: the round trip at a concrete one-member object. -/
theorem c5_fence_round_trip_witness :
    parseTestQuestionsResponse ("```json\n" ++ "\x7b\"a\":1\x7d" ++ "\n```")
      = Except.ok (Json.obj [("a", Json.num "1")]) :=
  (c5_fence_round_trip "\x7b\"a\":1\x7d" (Json.obj [("a", Json.num "1")])
    (by decide) (by decide) rfl).1

end ObsidianLLMTest
